import Mathlib

/-!
Verification development for the calendar tool in
`src/nanobot/agent/tools/calendar.py`.

The Python source is shallowly embedded: pure helpers become Lean
functions; the credential store's file effects are explicit state
passing (the token-file content before and after); network requests
are abstracted as an oracle giving the outcome of each attempt;
`float` arithmetic in the source (backoff powers, minutes-until-start)
is modelled over `ℚ`, which agrees with the source on every claim at
stake (all are count/threshold properties, not rounding properties).
-/

namespace NanobotCalendar

/-! ## RetryingRequestExecutor (`_execute_with_retries`, lines 243-272)

One fact about the exception hierarchy shapes this embedding:
`requests.HTTPError` subclasses `requests.RequestException`, which
subclasses `IOError = OSError`.  The source's first `except` clause
(`requests.Timeout, requests.ConnectionError, socket.timeout,
TimeoutError, OSError`) therefore catches every HTTP error before the
`except requests.HTTPError` clause below it is consulted — that second
clause, with its selective `raise` on statuses outside
`(401, 408, 429, 500, 502, 503, 504)`, is dead code.  The loop remembers
every failure in `last_error` and retries it. -/

/-- One way a single request attempt can fail.
`connErr` stands for the connection/timeout family named in the source's
first `except` clause; `httpErr status` stands for `requests.HTTPError`
raised by `raise_for_status()`, with
`status = getattr(getattr(e, "response", None), "status_code", None)`. -/
inductive AttemptError where
  | connErr : AttemptError
  | httpErr : Option Nat → AttemptError
deriving DecidableEq, Repr

/-- Outcome of calling `callable_request(timeout)` once. -/
inductive AttemptOutcome (α : Type) where
  | ok : α → AttemptOutcome α
  | fail : AttemptError → AttemptOutcome α
deriving DecidableEq, Repr

/-- The status tuple tested by the source's dead `except requests.HTTPError`
clause: `if status not in (401, 408, 429, 500, 502, 503, 504): raise`.
The running program never consults it (see the section comment); it is
kept to state how the program's behaviour diverges from the
classification written in that clause. -/
def retryableStatus (s : Option Nat) : Bool :=
  s == some 401 || s == some 408 || s == some 429 || s == some 500 ||
    s == some 502 || s == some 503 || s == some 504

/-- Whether an attempt failed (and was hence caught by the first
`except` clause and remembered as `last_error`). -/
def AttemptOutcome.isFailure : AttemptOutcome α → Bool
  | .ok _ => false
  | .fail _ => true

/-- The error of a failing attempt, `none` on success (mirrors `last_error`). -/
def AttemptOutcome.errorOf : AttemptOutcome α → Option AttemptError
  | .ok _ => none
  | .fail e => some e

/-- Result of `_execute_with_retries`: the returned value, or the final
`TimeoutError(f"Request failed after {retries + 1} attempts with
timeout={timeout}s: {last_error}")` carrying attempt count, timeout and
last error.  No immediate re-raise outcome exists: every exception the
request raises is caught by the first `except` clause and retried. -/
inductive RetryResult (α : Type) where
  | success : α → RetryResult α
  | transient : Nat → Nat → Option AttemptError → RetryResult α
deriving DecidableEq, Repr

/-- The `for attempt in range(retries + 1)` loop of `_execute_with_retries`.
`rem` is the number of loop iterations still to run (`retries + 1 - attempt`);
`last` is the current `last_error`.  Each failing attempt's error replaces
`last_error`, and while iterations remain a `time.sleep(backoff_base **
attempt)` precedes the next attempt; the second component of the result is
the trace of those sleep durations, in order. -/
def retryAux (f : Nat → AttemptOutcome α) (timeout retries : Nat) (b : ℚ) :
    Nat → Nat → Option AttemptError → RetryResult α × List ℚ
  | _attempt, 0, last => (.transient (retries + 1) timeout last, [])
  | attempt, rem + 1, _last =>
    match f attempt with
    | .ok v => (.success v, [])
    | .fail e =>
      match rem with
      | 0 => (.transient (retries + 1) timeout (some e), [])
      | rem' + 1 =>
        let rest := retryAux f timeout retries b (attempt + 1) (rem' + 1) (some e)
        (rest.1, b ^ attempt :: rest.2)

/-- `_execute_with_retries(callable_request, timeout, retries, backoff_base)`,
with the request function abstracted as the outcome `f i` of attempt `i`. -/
def executeWithRetries (f : Nat → AttemptOutcome α) (timeout retries : Nat)
    (b : ℚ) : RetryResult α × List ℚ :=
  retryAux f timeout retries b 0 (retries + 1) none

set_option maxRecDepth 4000

/-- The loop sleeps at most once per iteration except the last:
at most `rem - 1` sleeps remain when `rem` iterations remain. -/
theorem retryAux_sleeps_le (f : Nat → AttemptOutcome α) (t r : Nat) (b : ℚ) :
    ∀ rem attempt last, (retryAux f t r b attempt rem last).2.length ≤ rem - 1 := by
  intro rem
  induction rem with
  | zero => intro attempt last; simp [retryAux]
  | succ rem ih =>
    intro attempt last
    rw [retryAux]
    match h : f attempt with
    | .ok v => simp
    | .fail e =>
      match rem with
      | 0 => simp
      | rem' + 1 =>
        have := ih (attempt + 1) (some e)
        simp only [List.length_cons]
        omega

/-- If every attempt from `attempt` through `r` fails, and
`attempt + k = r`, the loop with `k + 1` iterations left exhausts and
raises the transient error built from the last attempt's failure. -/
theorem retryAux_exhaust (f : Nat → AttemptOutcome α) (t r : Nat) (b : ℚ)
    (hall : ∀ i, i ≤ r → (f i).isFailure = true) :
    ∀ k attempt last, attempt + k = r →
      (retryAux f t r b attempt (k + 1) last).1 =
        .transient (r + 1) t (f r).errorOf := by
  intro k
  induction k with
  | zero =>
    intro attempt last hsum
    have ha : attempt = r := by omega
    subst ha
    have := hall attempt (le_refl _)
    rw [retryAux]
    match hf : f attempt with
    | .ok v => rw [hf] at this; simp [AttemptOutcome.isFailure] at this
    | .fail e => simp [hf, AttemptOutcome.errorOf]
  | succ k ih =>
    intro attempt last hsum
    have hle : attempt ≤ r := by omega
    have := hall attempt hle
    rw [retryAux]
    match hf : f attempt with
    | .ok v => rw [hf] at this; simp [AttemptOutcome.isFailure] at this
    | .fail e => exact ih (attempt + 1) (some e) (by omega)

/-- C1: with `retries = 3`, a request failing with a connection error on
attempts 1-3 and succeeding on attempt 4, `_execute_with_retries` returns the
attempt-4 result and sleeps exactly three times, with durations
`backoffBase^0, backoffBase^1, backoffBase^2`; and in general, for any
request behaviour, the number of sleeps never exceeds `retries`, so a sleep
only ever separates two attempts and never follows the final one. -/
theorem retry_success_after_failures {α : Type} (v : α) (t r : Nat) (b : ℚ)
    (f g : Nat → AttemptOutcome α)
    (hf : ∀ i, i < 3 → f i = .fail .connErr) (hf3 : f 3 = .ok v) :
    executeWithRetries f t 3 b = (.success v, [b ^ 0, b ^ 1, b ^ 2]) ∧
      (executeWithRetries g t r b).2.length ≤ r := by
  constructor
  · rw [executeWithRetries]
    rw [retryAux, hf 0 (by norm_num)]
    simp only []
    rw [retryAux, hf 1 (by norm_num)]
    simp only []
    rw [retryAux, hf 2 (by norm_num)]
    simp only []
    rw [retryAux, hf3]
  · have := retryAux_sleeps_le g t r b (r + 1) 0 none
    simpa [executeWithRetries] using this

/-- Closed instance of `retry_success_after_failures` at a concrete request
function (three connection failures, then the value 7) and backoff base 3/2. -/
theorem retry_success_after_failures_witness :
    executeWithRetries
        (fun i => if i < 3 then .fail .connErr else .ok 7) 60 3 (3 / 2 : ℚ) =
      (.success 7, [(3 / 2 : ℚ) ^ 0, (3 / 2 : ℚ) ^ 1, (3 / 2 : ℚ) ^ 2]) ∧
      (executeWithRetries
        (fun i => if i < 3 then .fail .connErr else .ok 7) 60 5 (3 / 2 : ℚ)).2.length ≤ 5 :=
  retry_success_after_failures 7 60 5 (3 / 2 : ℚ)
    (fun i => if i < 3 then .fail .connErr else .ok 7)
    (fun i => if i < 3 then .fail .connErr else .ok 7)
    (fun i hi => by simp [hi]) (by norm_num)

/-- C2: refuted on the code.  The claimed immediate re-raise of HTTP
errors with statuses outside {401, 408, 429, 500, 502, 503, 504} never
happens: `requests.HTTPError` is an `OSError`, so the first `except`
clause catches every HTTP error and the selective re-raise below it is
dead code.  Evaluated at the failing input — a request raising HTTP 404
on every attempt with `retries = 3` — the executor consumes all four
attempts, sleeps three times with exponential backoff, and raises the
transient `TimeoutError` carrying attempt count 4, the configured
timeout, and the 404 as last error, although 404 is outside the dead
clause's retryable-status set; with `retries = 0` it likewise makes its
one attempt and raises the transient error without re-raising the 404. -/
theorem retry_http_404_retried_not_reraised (t : Nat) (b : ℚ) :
    retryableStatus (some 404) = false ∧
      executeWithRetries
          (fun _ => (.fail (.httpErr (some 404)) : AttemptOutcome Nat)) t 3 b =
        (.transient 4 t (some (.httpErr (some 404))), [b ^ 0, b ^ 1, b ^ 2]) ∧
      executeWithRetries
          (fun _ => (.fail (.httpErr (some 404)) : AttemptOutcome Nat)) t 0 b =
        (.transient 1 t (some (.httpErr (some 404))), []) :=
  ⟨by decide, rfl, rfl⟩

/-! ## CredentialStore (`_get_calendar_credentials`, lines 184-235, and
`_has_required_scopes`, lines 237-241) -/

/-- The required scope list, `CalendarTool.SCOPES`. -/
def SCOPES : List String := ["https://www.googleapis.com/auth/calendar"]

/-- `CalendarTool.CREDENTIALS_PATH` (the home-relative part). -/
def credentialsPath : String := "~/.nanobot/google-credentials.json"

/-- A persisted OAuth credential as the source reads it: the `valid`,
`expired` and `refresh_token` attributes (the latter as its truthiness),
plus the `has_scopes` query, which can itself fail (`Except` error). -/
structure Creds where
  valid : Bool
  expired : Bool
  refreshToken : Bool
  hasScopes : List String → Except String Bool

/-- `_has_required_scopes`: `creds.has_scopes(self.SCOPES)`, with any
exception during the check swallowed into `True`. -/
def hasRequiredScopes (c : Creds) : Bool :=
  match c.hasScopes SCOPES with
  | .ok b => b
  | .error _ => true

/-- The failure modes of `_get_calendar_credentials` (all `RuntimeError`
in the source, distinguished here by their messages). -/
inductive CredError where
  | configError : String → CredError
  | authError : CredError
  | refreshError : String → CredError
  | flowError : String → CredError

/-- Environment of one `_get_calendar_credentials` call: the token-file
content (`None` when `TOKEN_PATH` does not exist), whether
`CREDENTIALS_PATH` exists, and oracles for the outcome of
`creds.refresh(Request())` and of the interactive
`InstalledAppFlow...run_local_server` consent flow. -/
structure CredEnv where
  tokenFile : Option Creds
  credentialsFileExists : Bool
  refreshResult : Creds → Except String Creds
  flowResult : Except String Creds

/-- Lines 208-235: the part of `_get_calendar_credentials` reached when the
persisted token is absent or unusable.  Returns the call's outcome paired
with the token-file content afterwards. -/
def credsFallback (env : CredEnv) (allowBrowserAuth : Bool) :
    Except CredError Creds × Option Creds :=
  if !allowBrowserAuth then
    if !env.credentialsFileExists then
      (.error (.configError credentialsPath), env.tokenFile)
    else (.error .authError, env.tokenFile)
  else if !env.credentialsFileExists then
    (.error (.configError credentialsPath), env.tokenFile)
  else
    match env.flowResult with
    | .ok c => (.ok c, some c)
    | .error m => (.error (.flowError m), env.tokenFile)

/-- `_get_calendar_credentials(allow_browser_auth)`: outcome paired with
the token-file content after the call. -/
def getCalendarCredentials (env : CredEnv) (allowBrowserAuth : Bool) :
    Except CredError Creds × Option Creds :=
  match env.tokenFile with
  | none => credsFallback env allowBrowserAuth
  | some creds =>
    if creds.valid && hasRequiredScopes creds then (.ok creds, some creds)
    else if creds.expired && creds.refreshToken && hasRequiredScopes creds then
      match env.refreshResult creds with
      | .ok refreshed => (.ok refreshed, some refreshed)
      | .error m => (.error (.refreshError m), some creds)
    else credsFallback env allowBrowserAuth

/-- C3: a persisted token that is currently valid but whose scope check
succeeds and reports the scopes insufficient is, when interactive
authorization is not permitted, handled exactly like an absent token:
the call's outcome equals the outcome for an empty token file, namely the
auth error telling the caller to run the authorize action, or the config
error naming the credentials path when that file is absent; the
insufficient token is never returned. -/
theorem scope_insufficient_forces_reauth (env : CredEnv) (c : Creds)
    (ht : env.tokenFile = some c) (hv : c.valid = true)
    (hs : c.hasScopes SCOPES = .ok false) :
    (getCalendarCredentials env false).1 =
        (getCalendarCredentials { env with tokenFile := none } false).1 ∧
      (getCalendarCredentials env false).1 =
        (if env.credentialsFileExists then .error .authError
         else .error (.configError credentialsPath)) ∧
      ∀ cr, (getCalendarCredentials env false).1 ≠ .ok cr := by
  have hscope : hasRequiredScopes c = false := by
    simp [hasRequiredScopes, hs]
  have hmain : getCalendarCredentials env false = credsFallback env false := by
    rw [getCalendarCredentials, ht]
    simp [hscope]
  have hfb : (credsFallback env false).1 =
      (if env.credentialsFileExists then .error .authError
       else .error (.configError credentialsPath)) := by
    rw [credsFallback]
    by_cases hc : env.credentialsFileExists <;> simp [hc]
  have hnone : (getCalendarCredentials { env with tokenFile := none } false).1 =
      (credsFallback { env with tokenFile := none } false).1 := by
    rw [getCalendarCredentials]
  have hfb2 : (credsFallback { env with tokenFile := none } false).1 =
      (if env.credentialsFileExists then .error .authError
       else .error (.configError credentialsPath)) := by
    rw [credsFallback]
    by_cases hc : env.credentialsFileExists <;> simp [hc]
  refine ⟨?_, ?_, ?_⟩
  · rw [hmain, hnone, hfb, hfb2]
  · rw [hmain, hfb]
  · intro cr
    rw [hmain, hfb]
    by_cases hc : env.credentialsFileExists <;> simp [hc]

/-- A concrete valid credential whose scope check reports insufficiency. -/
def credValidNoScope : Creds := ⟨true, false, false, fun _ => .ok false⟩

/-- A concrete fresh credential with sufficient scopes. -/
def credFresh : Creds := ⟨true, false, true, fun _ => .ok true⟩

/-- A concrete expired, refreshable credential with sufficient scopes. -/
def credExpired : Creds := ⟨false, true, true, fun _ => .ok true⟩

/-- Closed instance of `scope_insufficient_forces_reauth`: a valid token
whose scope check reports `False`, with the credentials file present,
yields the same outcome as an empty token file. -/
theorem scope_insufficient_forces_reauth_witness :
    (getCalendarCredentials
        ⟨some credValidNoScope, true, fun c => .ok c, .error "denied"⟩ false).1 =
      (getCalendarCredentials
        ⟨none, true, fun c => .ok c, .error "denied"⟩ false).1 :=
  (scope_insufficient_forces_reauth
    ⟨some credValidNoScope, true, fun c => .ok c, .error "denied"⟩
    credValidNoScope rfl rfl rfl).1

/-- C4: an expired persisted token (hence not valid) holding a refresh
token, with sufficient scopes and a successful refresh exchange, makes
`_get_calendar_credentials` return the refreshed credential with the token
file replaced wholesale by exactly that credential, in either
authorization mode; and the interactive branch likewise leaves the file
holding exactly the token the successful consent flow produced.  So after
every successful refresh or authorization the file holds that very
token. -/
theorem refresh_persists_token (env env2 : CredEnv) (c c2 c3 : Creds)
    (allow : Bool)
    (ht : env.tokenFile = some c) (hv : c.valid = false)
    (he : c.expired = true) (hr : c.refreshToken = true)
    (hs : hasRequiredScopes c = true) (href : env.refreshResult c = .ok c2)
    (ht2 : env2.tokenFile = none) (hc2 : env2.credentialsFileExists = true)
    (hflow : env2.flowResult = .ok c3) :
    getCalendarCredentials env allow = (.ok c2, some c2) ∧
      getCalendarCredentials env2 true = (.ok c3, some c3) := by
  constructor
  · rw [getCalendarCredentials, ht]
    simp [hv, he, hr, hs, href]
  · rw [getCalendarCredentials, ht2, credsFallback]
    simp [hc2, hflow]

/-- Closed instance of `refresh_persists_token` at concrete environments:
refreshing writes the refreshed token to the file and returns it, and the
interactive flow writes the granted token to the file and returns it. -/
theorem refresh_persists_token_witness :
    getCalendarCredentials
        ⟨some credExpired, true, fun _ => .ok credFresh, .error "unused"⟩ false =
      (.ok credFresh, some credFresh) ∧
    getCalendarCredentials
        ⟨none, true, fun c => .ok c, .ok credFresh⟩ true =
      (.ok credFresh, some credFresh) :=
  refresh_persists_token _ _ credExpired credFresh credFresh false
    rfl rfl rfl rfl rfl rfl rfl rfl rfl

/-- C5: `_has_required_scopes` is fail-open: when the scope-sufficiency
query `creds.has_scopes(SCOPES)` itself raises, the check reports the
scopes as sufficient (`True`) instead of forcing re-authorization. -/
theorem scope_check_fail_open (c : Creds) (m : String)
    (h : c.hasScopes SCOPES = .error m) : hasRequiredScopes c = true := by
  simp [hasRequiredScopes, h]

/-- Closed instance of `scope_check_fail_open`: a credential whose scope
query always raises is reported as having the required scopes. -/
theorem scope_check_fail_open_witness :
    hasRequiredScopes ⟨true, false, false, fun _ => .error "boom"⟩ = true :=
  scope_check_fail_open ⟨true, false, false, fun _ => .error "boom"⟩ "boom" rfl

/-! ## Scheduler/Disambiguator (`_resolve_local_datetimes`, lines 449-474)

Aware local datetimes are modelled down to the microsecond, the
granularity of Python `datetime`: a calendar day index, the microseconds
elapsed within that day, and the fixed UTC offset of the attached
timezone in minutes. -/

/-- Microseconds per day. -/
def usPerDay : Nat := 86400000000

/-- Microseconds per minute. -/
def usPerMin : Nat := 60000000

/-- An aware `datetime` in a fixed-offset timezone. -/
structure LocalDT where
  day : Int
  tod : Nat
  offsetMin : Int
deriving DecidableEq, Repr

/-- The naive wall-clock reading, in microseconds. -/
def LocalDT.naiveUs (d : LocalDT) : Int := d.day * usPerDay + d.tod

/-- The UTC instant, in microseconds; aware datetimes compare by this. -/
def LocalDT.instantUs (d : LocalDT) : Int := d.naiveUs - d.offsetMin * usPerMin

/-- `a <= b` on aware datetimes with the same tzinfo (instant order). -/
def LocalDT.leB (a b : LocalDT) : Bool := a.instantUs ≤ b.instantUs

/-- `dt.replace(hour=h, minute=m, second=0, microsecond=0)`
(date and tzinfo kept). -/
def LocalDT.replaceHM (d : LocalDT) (h m : Nat) : LocalDT :=
  { d with tod := (h * 60 + m) * usPerMin }

/-- `dt + timedelta(days=1)` (wall clock shifted, tzinfo kept). -/
def LocalDT.addDay (d : LocalDT) : LocalDT := { d with day := d.day + 1 }

/-- `dt.astimezone(tz)` for a fixed-offset `tz` of `off` minutes: same
instant re-expressed at that offset.  The divisor is positive, so
`Int.ediv`/`Int.emod` here are Python's floor division and modulo. -/
def LocalDT.astimezone (d : LocalDT) (off : Int) : LocalDT :=
  let wall : Int := d.instantUs + off * usPerMin
  { day := wall / usPerDay, tod := (wall % (usPerDay : Int)).toNat,
    offsetMin := off }

/-- `_resolve_local_datetimes(start_hm, end_hm)` with the current aware
local datetime `now` passed explicitly.  `ValueError` from
`datetime.replace` on an out-of-range hour or minute surfaces as
`.error`. -/
def resolveLocalDatetimes (now : LocalDT) (sh sm eh em : Nat) :
    Except String (LocalDT × LocalDT) :=
  if 24 ≤ sh ∨ 60 ≤ sm then .error "ValueError: start time out of range"
  else
    let startDt0 := now.replaceHM sh sm
    let startDt := if startDt0.leB now then startDt0.addDay else startDt0
    if 24 ≤ eh ∨ 60 ≤ em then .error "ValueError: end time out of range"
    else
      let endDt0 := startDt.replaceHM eh em
      let endDt := if endDt0.leB startDt then endDt0.addDay else endDt0
      .ok (startDt.astimezone now.offsetMin, endDt.astimezone now.offsetMin)

/-- `astimezone` into the datetime's own offset is the identity on
well-formed datetimes. -/
theorem LocalDT.astimezone_self (d : LocalDT) (h : d.tod < usPerDay) :
    d.astimezone d.offsetMin = d := by
  unfold LocalDT.astimezone LocalDT.instantUs LocalDT.naiveUs
  have hw : d.day * (usPerDay : Int) + (d.tod : Int) - d.offsetMin * usPerMin +
      d.offsetMin * usPerMin = d.day * (usPerDay : Int) + (d.tod : Int) := by ring
  have htod : (d.tod : Int) < (usPerDay : Int) := by exact_mod_cast h
  have hdiv : (d.day * (usPerDay : Int) + (d.tod : Int)) / (usPerDay : Int) = d.day := by
    simp only [usPerDay] at htod ⊢
    omega
  have hmod : (d.day * (usPerDay : Int) + (d.tod : Int)) % (usPerDay : Int) = d.tod := by
    simp only [usPerDay] at htod ⊢
    omega
  simp only [hw, hdiv, hmod, Int.toNat_ofNat]

/-- Full characterisation of `_resolve_local_datetimes` on in-range
inputs: clock times, offsets and day placement of both results. -/
theorem resolveLocalDatetimes_ok (now : LocalDT) (sh sm eh em : Nat)
    (hsh : sh < 24) (hsm : sm < 60) (heh : eh < 24) (hem : em < 60)
    (htod : now.tod < usPerDay) :
    ∃ s e, resolveLocalDatetimes now sh sm eh em = .ok (s, e) ∧
      s.tod = (sh * 60 + sm) * usPerMin ∧
      e.tod = (eh * 60 + em) * usPerMin ∧
      s.offsetMin = now.offsetMin ∧ e.offsetMin = now.offsetMin ∧
      (s.day = now.day ∨ s.day = now.day + 1) ∧
      (s.day = now.day + 1 ↔ (now.replaceHM sh sm).leB now = true) ∧
      (e.day = s.day ∨ e.day = s.day + 1) ∧
      (e.day = s.day + 1 ↔ eh * 60 + em ≤ sh * 60 + sm) := by
  have hrange1 : ¬(24 ≤ sh ∨ 60 ≤ sm) := by omega
  have hrange2 : ¬(24 ≤ eh ∨ 60 ≤ em) := by omega
  have hstod : (sh * 60 + sm) * usPerMin < usPerDay := by
    calc (sh * 60 + sm) * usPerMin ≤ 1439 * usPerMin :=
          Nat.mul_le_mul_right _ (by omega)
      _ < usPerDay := by norm_num [usPerMin, usPerDay]
  have hetod : (eh * 60 + em) * usPerMin < usPerDay := by
    calc (eh * 60 + em) * usPerMin ≤ 1439 * usPerMin :=
          Nat.mul_le_mul_right _ (by omega)
      _ < usPerDay := by norm_num [usPerMin, usPerDay]
  set s0 := now.replaceHM sh sm with hs0
  set s1 := if s0.leB now then s0.addDay else s0 with hs1
  set e0 := s1.replaceHM eh em with he0
  set e1 := if e0.leB s1 then e0.addDay else e0 with he1
  have hs1off : s1.offsetMin = now.offsetMin := by
    rw [hs1]
    by_cases hb : s0.leB now
    · rw [if_pos hb]; rfl
    · rw [if_neg hb]; rfl
  have hs1tod : s1.tod = (sh * 60 + sm) * usPerMin := by
    rw [hs1]
    by_cases hb : s0.leB now
    · rw [if_pos hb]; rfl
    · rw [if_neg hb]; rfl
  have he1off : e1.offsetMin = now.offsetMin := by
    rw [he1]
    by_cases hb : e0.leB s1
    · rw [if_pos hb]; exact hs1off
    · rw [if_neg hb]; exact hs1off
  have he1tod : e1.tod = (eh * 60 + em) * usPerMin := by
    rw [he1]
    by_cases hb : e0.leB s1
    · rw [if_pos hb]; rfl
    · rw [if_neg hb]; rfl
  have hcompute : resolveLocalDatetimes now sh sm eh em =
      .ok (s1.astimezone now.offsetMin, e1.astimezone now.offsetMin) := by
    unfold resolveLocalDatetimes
    rw [if_neg hrange1, if_neg hrange2]
  have hsid : s1.astimezone now.offsetMin = s1 := by
    rw [← hs1off]
    exact LocalDT.astimezone_self s1 (by rw [hs1tod]; exact hstod)
  have heid : e1.astimezone now.offsetMin = e1 := by
    rw [← he1off]
    exact LocalDT.astimezone_self e1 (by rw [he1tod]; exact hetod)
  have hleb : e0.leB s1 = true ↔ eh * 60 + em ≤ sh * 60 + sm := by
    unfold LocalDT.leB
    rw [decide_eq_true_eq]
    have h1 : e0.instantUs =
        s1.day * (usPerDay : Int) + ((eh * 60 + em) * usPerMin : Nat) -
          s1.offsetMin * usPerMin := rfl
    have h2 : s1.instantUs =
        s1.day * (usPerDay : Int) + (s1.tod : Nat) -
          s1.offsetMin * usPerMin := rfl
    rw [h1, h2, hs1tod]
    simp only [usPerMin, usPerDay]
    omega
  refine ⟨s1, e1, by rw [hcompute, hsid, heid], hs1tod, he1tod, hs1off, he1off,
    ?_, ?_, ?_, ?_⟩
  · rw [hs1]
    by_cases hb : s0.leB now
    · rw [if_pos hb]; right; rfl
    · rw [if_neg hb]; left; rfl
  · rw [hs1]
    by_cases hb : s0.leB now
    · rw [if_pos hb]
      exact ⟨fun _ => hb, fun _ => rfl⟩
    · rw [if_neg hb]
      constructor
      · intro h
        have h2 : now.day = now.day + 1 := h
        omega
      · intro h
        exact absurd h hb
  · rw [he1]
    by_cases hb : e0.leB s1
    · rw [if_pos hb]; right; rfl
    · rw [if_neg hb]; left; rfl
  · rw [he1]
    by_cases hb : e0.leB s1
    · rw [if_pos hb]
      exact ⟨fun _ => hleb.mp hb, fun _ => rfl⟩
    · rw [if_neg hb]
      constructor
      · intro h
        have h2 : s1.day = s1.day + 1 := h
        omega
      · intro h
        exact absurd (hleb.mpr h) hb

/-- C6: for in-range clock times and a well-formed current local datetime,
`_resolve_local_datetimes` places the start at today's date with the given
hour:minute, rolling it forward exactly one day exactly when that instant
is not strictly after now; the end gets the given hour:minute on the same
calendar day as the resolved start, rolling forward exactly one day exactly
when end ≤ start (so for end ≤ start the end falls on the day after the
start); both results keep the explicit local UTC offset. -/
theorem resolve_local_datetimes_spec (now : LocalDT) (sh sm eh em : Nat)
    (hsh : sh < 24) (hsm : sm < 60) (heh : eh < 24) (hem : em < 60)
    (htod : now.tod < usPerDay) :
    ∃ s e, resolveLocalDatetimes now sh sm eh em = .ok (s, e) ∧
      s.tod = (sh * 60 + sm) * usPerMin ∧
      e.tod = (eh * 60 + em) * usPerMin ∧
      s.offsetMin = now.offsetMin ∧ e.offsetMin = now.offsetMin ∧
      (s.day = now.day ∨ s.day = now.day + 1) ∧
      (s.day = now.day + 1 ↔ (now.replaceHM sh sm).leB now = true) ∧
      (e.day = s.day ∨ e.day = s.day + 1) ∧
      (e.day = s.day + 1 ↔ eh * 60 + em ≤ sh * 60 + sm) :=
  resolveLocalDatetimes_ok now sh sm eh em hsh hsm heh hem htod

/-- Closed instance of `resolve_local_datetimes_spec` at noon local time
UTC+8 with the range 17:30-19:00: both resolved instants exist with the
stated clock times, offsets and day placement. -/
theorem resolve_local_datetimes_spec_witness :
    ∃ s e, resolveLocalDatetimes ⟨20000, 43200000000, 480⟩ 17 30 19 0 =
        .ok (s, e) ∧
      s.tod = (17 * 60 + 30) * usPerMin ∧
      e.tod = (19 * 60 + 0) * usPerMin ∧
      s.offsetMin = (480 : Int) ∧ e.offsetMin = (480 : Int) ∧
      (s.day = (20000 : Int) ∨ s.day = (20000 : Int) + 1) ∧
      (s.day = (20000 : Int) + 1 ↔
        (LocalDT.replaceHM ⟨20000, 43200000000, 480⟩ 17 30).leB
          ⟨20000, 43200000000, 480⟩ = true) ∧
      (e.day = s.day ∨ e.day = s.day + 1) ∧
      (e.day = s.day + 1 ↔ 19 * 60 + 0 ≤ 17 * 60 + 30) :=
  resolve_local_datetimes_spec ⟨20000, 43200000000, 480⟩ 17 30 19 0
    (by norm_num) (by norm_num) (by norm_num) (by norm_num)
    (by norm_num [usPerDay])

/-! ## TimeRangeParser (`TIME_RANGE_PATTERN`, `_parse_create_text` lines
422-438, `_normalize_title_text` lines 440-447)

The pattern `(?P<start>\d{1,2}:\d{2})\s*[-~到至]\s*(?P<end>\d{1,2}:\d{2})`
is implemented directly over the character list.  `\d` and `\s` are taken
as ASCII digits and whitespace (the Unicode-only extras of Python's
classes never arise in the inputs at stake).  The greedy `\d{1,2}` needs
no general backtracking: when two digits are followed by `:` the
two-digit reading is the only viable one, otherwise only the one-digit
reading can succeed. -/

/-- Numeric value of `int()` on a matched one- or two-digit group. -/
def digitVal (c : Char) : Nat := c.toNat - 48

/-- Match `\d{1,2}:\d{2}` at the head of the input; on success return the
parsed `(hour, minute)` (the later `int(part)` of the source) and the rest. -/
def matchHM : List Char → Option ((Nat × Nat) × List Char)
  | a :: b :: ':' :: c :: d :: rest =>
    if a.isDigit && b.isDigit && c.isDigit && d.isDigit then
      some ((digitVal a * 10 + digitVal b, digitVal c * 10 + digitVal d), rest)
    else none
  | a :: ':' :: c :: d :: rest =>
    if a.isDigit && c.isDigit && d.isDigit then
      some ((digitVal a, digitVal c * 10 + digitVal d), rest)
    else none
  | _ => none

/-- The separator class `[-~到至]`. -/
def isRangeSep (c : Char) : Bool := c == '-' || c == '~' || c == '到' || c == '至'

/-- `\s*`: drop leading whitespace. -/
def skipWS (cs : List Char) : List Char := cs.dropWhile Char.isWhitespace

/-- Try the whole pattern at the head of the input: start group, `\s*`,
separator, `\s*`, end group.  Returns both groups and the rest of the text
after the match (`text[match.end():]`). -/
def matchRangeAt (cs : List Char) :
    Option ((Nat × Nat) × (Nat × Nat) × List Char) :=
  match matchHM cs with
  | none => none
  | some (shm, r1) =>
    match skipWS r1 with
    | [] => none
    | sep :: r2 =>
      if isRangeSep sep then
        match matchHM (skipWS r2) with
        | none => none
        | some (ehm, r3) => some (shm, ehm, r3)
      else none

/-- `TIME_RANGE_PATTERN.search(text)`: leftmost match. -/
def searchRange : List Char → Option ((Nat × Nat) × (Nat × Nat) × List Char)
  | [] => none
  | c :: rest =>
    match matchRangeAt (c :: rest) with
    | some r => some r
    | none => searchRange rest

/-- Python `str.strip()` with no argument (whitespace both ends). -/
def stripList (l : List Char) : List Char :=
  ((l.dropWhile Char.isWhitespace).reverse.dropWhile Char.isWhitespace).reverse

/-- The punctuation set of `lstrip("，,。.!?？：:;； ")`. -/
def leadPunct : List Char :=
  ['，', ',', '。', '.', '!', '?', '？', '：', ':', ';', '；', ' ']

/-- Python `str.endswith`. -/
def listEndsWith (n suf : List Char) : Bool :=
  n.drop (n.length - suf.length) == suf

/-- The trailing filler suffixes, in the order the source tries them. -/
def titleSuffixes : List (List Char) :=
  ["的事项".toList, "事项".toList, "事件".toList, "日程".toList, "安排".toList]

/-- The `for suffix in (...)` loop with its `break`: strip the first
matching trailing filler once, re-stripping whitespace afterwards. -/
def stripFillerOnce : List (List Char) → List Char → List Char
  | [], n => n
  | suf :: more, n =>
    if listEndsWith n suf then stripList (n.take (n.length - suf.length))
    else stripFillerOnce more n

/-- `_normalize_title_text(title)`. -/
def normalizeTitleText (t : List Char) : List Char :=
  stripFillerOnce titleSuffixes
    ((stripList t).dropWhile (fun c => leadPunct.contains c))

/-- `_parse_create_text(text)`, with the current aware local datetime
passed explicitly (the source reads it inside `_resolve_local_datetimes`).
Returns the resolved title and the two aware local datetimes whose
`isoformat()` strings the source returns. -/
def parseCreateText (now : LocalDT) (text : String) :
    Except String (String × LocalDT × LocalDT) :=
  match searchRange text.toList with
  | none => .error "Could not parse time range from text."
  | some (shm, ehm, tail) =>
    let title0 := normalizeTitleText (stripList tail)
    let title := if title0.isEmpty then "Untitled Event" else title0.asString
    match resolveLocalDatetimes now shm.1 shm.2 ehm.1 ehm.2 with
    | .error m => .error m
    | .ok (s, e) => .ok (title, s, e)


/-- C7 counterexample: on `"9:00~10:30的事项开会"` the filler `"的事项"` sits at
the *front* of the remainder, and `_normalize_title_text` strips fillers only
from the end (`endswith`), so the produced title is `"的事项开会"`, not the
claimed `"开会"`. -/
theorem parse_suffix_not_stripped_counterexample :
    parseCreateText ⟨0, 0, 0⟩ "9:00~10:30的事项开会" =
        .ok ("的事项开会", ⟨0, 32400000000, 0⟩, ⟨0, 37800000000, 0⟩) ∧
      "的事项开会" ≠ "开会" := ⟨by rfl, by decide⟩

/-- C7 (amended): `parse("17:30-19:00跑步")` yields title `"跑步"` with start
17:30 and end 19:00; `parse("9:00~10:30的事项开会")` yields title
`"的事项开会"` (the filler `"的事项"` is not at the end of the remainder, so
suffix-stripping removes nothing); `parse("no time here")` fails because no
HH:MM-separator-HH:MM pattern is present; and whenever the stripped
remainder after the matched range is empty, the title defaults to the
literal placeholder `"Untitled Event"`. -/
theorem parse_create_text_examples (now : LocalDT) (htod : now.tod < usPerDay) :
    (∃ s e, parseCreateText now "17:30-19:00跑步" = .ok ("跑步", s, e) ∧
      s.tod = (17 * 60 + 30) * usPerMin ∧ e.tod = (19 * 60 + 0) * usPerMin) ∧
    (∃ s e, parseCreateText now "9:00~10:30的事项开会" =
        .ok ("的事项开会", s, e) ∧
      s.tod = (9 * 60 + 0) * usPerMin ∧ e.tod = (10 * 60 + 30) * usPerMin) ∧
    parseCreateText now "no time here" =
      .error "Could not parse time range from text." ∧
    (∀ text shm ehm tail, searchRange (String.toList text) = some (shm, ehm, tail) →
      normalizeTitleText (stripList tail) = [] →
      ∀ t s e, parseCreateText now text = .ok (t, s, e) → t = "Untitled Event") := by
  refine ⟨?_, ?_, ?_, ?_⟩
  · obtain ⟨s, e, hok, hstod, hetod, -⟩ :=
      resolve_local_datetimes_spec now 17 30 19 0 (by norm_num) (by norm_num)
        (by norm_num) (by norm_num) htod
    refine ⟨s, e, ?_, hstod, hetod⟩
    have key : parseCreateText now "17:30-19:00跑步" =
        match resolveLocalDatetimes now 17 30 19 0 with
        | .error m => .error m
        | .ok (s, e) => .ok ("跑步", s, e) := rfl
    rw [key, hok]
  · obtain ⟨s, e, hok, hstod, hetod, -⟩ :=
      resolve_local_datetimes_spec now 9 0 10 30 (by norm_num) (by norm_num)
        (by norm_num) (by norm_num) htod
    refine ⟨s, e, ?_, hstod, hetod⟩
    have key : parseCreateText now "9:00~10:30的事项开会" =
        match resolveLocalDatetimes now 9 0 10 30 with
        | .error m => .error m
        | .ok (s, e) => .ok ("的事项开会", s, e) := rfl
    rw [key, hok]
  · rfl
  · intro text shm ehm tail hsr hnorm t s e hok
    unfold parseCreateText at hok
    rw [hsr] at hok
    simp only [hnorm, List.isEmpty_nil, if_true] at hok
    match hres : resolveLocalDatetimes now shm.1 shm.2 ehm.1 ehm.2 with
    | .error m => rw [hres] at hok; exact absurd hok (by simp)
    | .ok (s', e') =>
      rw [hres] at hok
      simp only [Except.ok.injEq, Prod.mk.injEq] at hok
      exact hok.1.symm

/-- Closed instance of `parse_create_text_examples` at midnight UTC. -/
theorem parse_create_text_examples_witness :
    (⟨0, 0, 0⟩ : LocalDT).tod < usPerDay ∧
      ((∃ s e, parseCreateText ⟨0, 0, 0⟩ "17:30-19:00跑步" = .ok ("跑步", s, e) ∧
        s.tod = (17 * 60 + 30) * usPerMin ∧ e.tod = (19 * 60 + 0) * usPerMin) ∧
      (∃ s e, parseCreateText ⟨0, 0, 0⟩ "9:00~10:30的事项开会" =
          .ok ("的事项开会", s, e) ∧
        s.tod = (9 * 60 + 0) * usPerMin ∧ e.tod = (10 * 60 + 30) * usPerMin) ∧
      parseCreateText ⟨0, 0, 0⟩ "no time here" =
        .error "Could not parse time range from text." ∧
      (∀ text shm ehm tail, searchRange (String.toList text) = some (shm, ehm, tail) →
        normalizeTitleText (stripList tail) = [] →
        ∀ t s e, parseCreateText ⟨0, 0, 0⟩ text = .ok (t, s, e) →
          t = "Untitled Event")) :=
  ⟨by norm_num [usPerDay],
    parse_create_text_examples ⟨0, 0, 0⟩ (by norm_num [usPerDay])⟩

/-! ## Create-payload validation (`_resolve_create_payload`, lines 371-412,
and `_parse_iso_datetime_with_timezone`, lines 414-420)

An ISO datetime string (after the source's `"Z" → "+00:00"` replacement) is
represented by what `datetime.fromisoformat` reads from it: the naive
wall-clock microseconds and the UTC offset, present or absent. -/

/-- A lexed ISO datetime value. -/
structure IsoDateTime where
  us : Int
  offsetMin : Option Int
deriving DecidableEq, Repr

/-- `_parse_iso_datetime_with_timezone`: reject a naive (offset-less)
instant, otherwise hand back the aware `(wall-clock, offset)` pair. -/
def parseIsoDatetimeWithTimezone (d : IsoDateTime) (fieldName : String) :
    Except String (Int × Int) :=
  match d.offsetMin with
  | none =>
    .error ("Invalid " ++ fieldName ++ ": timezone is required in ISO datetime.")
  | some off => .ok (d.us, off)

/-- The UTC instant of an aware `(wall-clock, offset)` pair; aware
`datetime` comparison (`end_dt <= start_dt`) compares these. -/
def awareInstant (p : Int × Int) : Int := p.1 - p.2 * usPerMin

/-- The ISO rendering of an aware local datetime, as re-read by
`fromisoformat` (the parse round-trips `isoformat()` exactly). -/
def LocalDT.toIso (d : LocalDT) : IsoDateTime := ⟨d.naiveUs, some d.offsetMin⟩

/-- Python `str.strip()` on strings. -/
def pyStrip (s : String) : String := (stripList s.toList).asString

/-- The event payload the source posts: `summary`, aware start and end
(`{"dateTime": ...isoformat()}`), optional location and description. -/
structure EventPayload where
  summary : String
  startDT : Int × Int
  endDT : Int × Int
  location : Option String
  description : Option String
deriving DecidableEq, Repr

/-- Python truthiness of the optional string fields: `if location:` skips
both an absent and an empty string. -/
def truthyOpt : Option String → Option String
  | some l => if l = "" then none else some l
  | none => none

/-- Lines 394-412 of `_resolve_create_payload`: the title presence check,
the two timezone-requiring parses, the `end_dt <= start_dt` rejection, and
the payload assembly. -/
def validateCreatePayload (rTitle : String) (s e : IsoDateTime)
    (location description : Option String) : Except String EventPayload :=
  if rTitle = "" then .error "Missing title for action=create."
  else
    match parseIsoDatetimeWithTimezone s "start" with
    | .error m => .error m
    | .ok sp =>
      match parseIsoDatetimeWithTimezone e "end" with
      | .error m => .error m
      | .ok ep =>
        if awareInstant ep ≤ awareInstant sp then
          .error "Invalid time range: end must be later than start."
        else .ok ⟨rTitle, sp, ep, truthyOpt location, truthyOpt description⟩

/-- `_resolve_create_payload(title, start, end, location, description, text)`
with the current aware local datetime passed explicitly.  `none` for
`start`/`end` stands for an absent or blank argument (the source's
`(start or "").strip()` being empty). -/
def resolveCreatePayload (now : LocalDT) (title : Option String)
    (start fin : Option IsoDateTime) (location description : Option String)
    (text : Option String) : Except String EventPayload :=
  let resolvedTitle := pyStrip (title.getD "")
  match start, fin with
  | some s, some e => validateCreatePayload resolvedTitle s e location description
  | _, _ =>
    match text with
    | none =>
      .error "For action=create, provide either start+end ISO datetimes or text."
    | some tx =>
      match parseCreateText now tx with
      | .error m => .error m
      | .ok (pt, ps, pe) =>
        let rTitle := if resolvedTitle = "" then pt else resolvedTitle
        validateCreatePayload rTitle (start.getD ps.toIso) (fin.getD pe.toIso)
          location description

/-- A validated payload always has its end instant strictly after its
start instant (the `end_dt <= start_dt` check ran). -/
theorem validateCreatePayload_ok (rt : String) (s e : IsoDateTime)
    (loc desc : Option String) (p : EventPayload)
    (h : validateCreatePayload rt s e loc desc = .ok p) :
    awareInstant p.startDT < awareInstant p.endDT := by
  unfold validateCreatePayload at h
  by_cases h1 : rt = ""
  · simp [h1] at h
  · rw [if_neg h1] at h
    match hs : parseIsoDatetimeWithTimezone s "start" with
    | .error m => rw [hs] at h; exact absurd h (by simp)
    | .ok sp =>
      rw [hs] at h
      simp only [] at h
      match he : parseIsoDatetimeWithTimezone e "end" with
      | .error m => rw [he] at h; exact absurd h (by simp)
      | .ok ep =>
        rw [he] at h
        simp only [] at h
        by_cases h2 : awareInstant ep ≤ awareInstant sp
        · simp [h2] at h
        · rw [if_neg h2] at h
          simp only [Except.ok.injEq] at h
          rw [← h]
          exact lt_of_not_le h2

/-- C8: `_resolve_create_payload` validation.  With explicit aware start
and end whose end instant is not after the start instant, the call fails,
whatever the title, location, description or text; a naive (offset-less)
start or end also makes the call fail; and every payload that validates
successfully, on any input path, has end instant strictly after start
instant (with both instants offset-qualified by construction of the
payload). -/
theorem create_payload_validation (now : LocalDT)
    (title loc desc text : Option String) (s e : IsoDateTime) (so eo : Int)
    (hs : s.offsetMin = some so) (he : e.offsetMin = some eo)
    (hle : e.us - eo * usPerMin ≤ s.us - so * usPerMin) :
    (∃ m, resolveCreatePayload now title (some s) (some e) loc desc text =
      .error m) ∧
    (∀ s2 e2 : IsoDateTime, s2.offsetMin = none →
      ∃ m, resolveCreatePayload now title (some s2) (some e2) loc desc text =
        .error m) ∧
    (∀ s3 e3 : IsoDateTime, s3.offsetMin = some so → e3.offsetMin = none →
      ∃ m, resolveCreatePayload now title (some s3) (some e3) loc desc text =
        .error m) ∧
    (∀ t2 st2 en2 l2 d2 tx2 p,
      resolveCreatePayload now t2 st2 en2 l2 d2 tx2 = .ok p →
      awareInstant p.startDT < awareInstant p.endDT) := by
  refine ⟨?_, ?_, ?_, ?_⟩
  · have key : resolveCreatePayload now title (some s) (some e) loc desc text =
        validateCreatePayload (pyStrip (title.getD "")) s e loc desc := rfl
    rw [key]
    unfold validateCreatePayload
    by_cases h1 : pyStrip (title.getD "") = ""
    · exact ⟨"Missing title for action=create.", by rw [if_pos h1]⟩
    · have hps : parseIsoDatetimeWithTimezone s "start" = .ok (s.us, so) := by
        unfold parseIsoDatetimeWithTimezone
        rw [hs]
      have hpe : parseIsoDatetimeWithTimezone e "end" = .ok (e.us, eo) := by
        unfold parseIsoDatetimeWithTimezone
        rw [he]
      have ha : awareInstant (e.us, eo) ≤ awareInstant (s.us, so) := by
        unfold awareInstant
        simpa using hle
      refine ⟨"Invalid time range: end must be later than start.", ?_⟩
      rw [if_neg h1, hps]
      simp only []
      rw [hpe]
      simp only []
      rw [if_pos ha]
  · intro s2 e2 h2
    have key : resolveCreatePayload now title (some s2) (some e2) loc desc text =
        validateCreatePayload (pyStrip (title.getD "")) s2 e2 loc desc := rfl
    rw [key]
    unfold validateCreatePayload
    by_cases h1 : pyStrip (title.getD "") = ""
    · exact ⟨"Missing title for action=create.", by rw [if_pos h1]⟩
    · have hps : parseIsoDatetimeWithTimezone s2 "start" =
          .error "Invalid start: timezone is required in ISO datetime." := by
        unfold parseIsoDatetimeWithTimezone
        rw [h2]
        rfl
      refine ⟨"Invalid start: timezone is required in ISO datetime.", ?_⟩
      rw [if_neg h1, hps]
  · intro s3 e3 h3s h3
    have key : resolveCreatePayload now title (some s3) (some e3) loc desc text =
        validateCreatePayload (pyStrip (title.getD "")) s3 e3 loc desc := rfl
    rw [key]
    unfold validateCreatePayload
    by_cases h1 : pyStrip (title.getD "") = ""
    · exact ⟨"Missing title for action=create.", by rw [if_pos h1]⟩
    · have hps : parseIsoDatetimeWithTimezone s3 "start" = .ok (s3.us, so) := by
        unfold parseIsoDatetimeWithTimezone
        rw [h3s]
      have hpe : parseIsoDatetimeWithTimezone e3 "end" =
          .error "Invalid end: timezone is required in ISO datetime." := by
        unfold parseIsoDatetimeWithTimezone
        rw [h3]
        rfl
      refine ⟨"Invalid end: timezone is required in ISO datetime.", ?_⟩
      rw [if_neg h1, hps]
      simp only []
      rw [hpe]
  · intro t2 st2 en2 l2 d2 tx2 p hok
    unfold resolveCreatePayload at hok
    cases st2 with
    | some s2 =>
      cases en2 with
      | some e2 =>
        simp only [] at hok
        exact validateCreatePayload_ok _ _ _ _ _ _ hok
      | none =>
        simp only [] at hok
        cases tx2 with
        | none => exact absurd hok (by simp)
        | some tx =>
          simp only [] at hok
          match hp : parseCreateText now tx with
          | .error m =>
            rw [hp] at hok
            exact absurd hok (by simp)
          | .ok (pt, ps, pe) =>
            rw [hp] at hok
            simp only [] at hok
            exact validateCreatePayload_ok _ _ _ _ _ _ hok
    | none =>
      simp only [] at hok
      cases tx2 with
      | none => exact absurd hok (by simp)
      | some tx =>
        simp only [] at hok
        match hp : parseCreateText now tx with
        | .error m =>
          rw [hp] at hok
          exact absurd hok (by simp)
        | .ok (pt, ps, pe) =>
          rw [hp] at hok
          simp only [] at hok
          exact validateCreatePayload_ok _ _ _ _ _ _ hok

/-- Closed instance of `create_payload_validation`: an explicit pair with
end at the same instant as start fails, naive instants fail, and all
successful validations order their instants strictly. -/
theorem create_payload_validation_witness :
    (∃ m, resolveCreatePayload ⟨0, 0, 0⟩ (some "T")
        (some ⟨1000000, some 0⟩) (some ⟨0, some 0⟩) none none none =
      .error m) ∧
    (∀ s2 e2 : IsoDateTime, s2.offsetMin = none →
      ∃ m, resolveCreatePayload ⟨0, 0, 0⟩ (some "T")
          (some s2) (some e2) none none none = .error m) ∧
    (∀ s3 e3 : IsoDateTime, s3.offsetMin = some 0 → e3.offsetMin = none →
      ∃ m, resolveCreatePayload ⟨0, 0, 0⟩ (some "T")
          (some s3) (some e3) none none none = .error m) ∧
    (∀ t2 st2 en2 l2 d2 tx2 p,
      resolveCreatePayload ⟨0, 0, 0⟩ t2 st2 en2 l2 d2 tx2 = .ok p →
      awareInstant p.startDT < awareInstant p.endDT) :=
  create_payload_validation ⟨0, 0, 0⟩ (some "T") none none none
    ⟨1000000, some 0⟩ ⟨0, some 0⟩ 0 0 rfl rfl (by norm_num)

/-! ## EventFormatter (`_format_events`, lines 476-523)

A fetched event's `start`/`end` values are either a `dateTime` string
(the `"T" in start_time` case, parsed by `fromisoformat` into an aware
datetime, modelled as `LocalDT`) or an all-day `date` string.
`time_until = (start_dt - now).total_seconds() / 60` is modelled over `ℚ`.
The header's `today.strftime('%Y-%m-%d')` rendering is abstracted as a
parameter; no claim touches it. -/

/-- A `start`/`end` field of a server-returned event. -/
inductive EventTime where
  | dateTime : LocalDT → EventTime
  | date : String → EventTime
deriving DecidableEq, Repr

/-- A server-returned event as `_format_events` reads it (`None` for a
missing field; the summary default and location truthiness follow the
source's `get` calls). -/
structure RemoteEvent where
  startTime : Option EventTime
  endTime : Option EventTime
  summary : Option String
  location : Option String
deriving DecidableEq, Repr

/-- Two-digit zero-padded rendering used by `strftime("%H:%M")`. -/
def pad2 (n : Nat) : String := if n < 10 then "0" ++ toString n else toString n

/-- `strftime("%H:%M")` of a datetime with the given time-of-day. -/
def hmStr (tod : Nat) : String :=
  pad2 (tod / 3600000000) ++ ":" ++ pad2 (tod / 60000000 % 60)

/-- `time_until = (start_dt - now).total_seconds() / 60`, in minutes. -/
def timeUntilMin (nowUs startUs : Int) : ℚ :=
  ((startUs - nowUs : Int) : ℚ) / 60000000

/-- Lines 498-505: the urgency marker from minutes-until-start. -/
def markerFor (tu : ℚ) : String :=
  if tu < 30 then "[urgent]"
  else if tu < 60 then "[soon]"
  else if tu < 120 then "[upcoming]"
  else ""

/-- Lines 512-514: `hours = int(time_until // 60)`,
`mins = int(time_until % 60)` (floor agrees with `int()` truncation on the
nonnegative values this is applied to), rendered `"Xh Ym"` or `"Ym"`. -/
def countdownStr (tu : ℚ) : String :=
  let hours : Int := Int.floor (tu / 60)
  let mins : Int := Int.floor (tu - 60 * (Int.floor (tu / 60) : ℚ))
  if hours > 0 then toString hours ++ "h " ++ toString mins ++ "m"
  else toString mins ++ "m"

/-- One iteration of the loop in `_format_events`: the rendered line for
one event, or `none` when the event is skipped for lacking a usable start
or end. -/
def formatEventLine (nowUs : Int) (ev : RemoteEvent) : Option String :=
  match ev.startTime, ev.endTime with
  | some st, some et =>
    let title := ev.summary.getD "No title"
    let line :=
      match st with
      | .dateTime sdt =>
        let tu := timeUntilMin nowUs sdt.instantUs
        let endStr :=
          match et with
          | .dateTime edt => hmStr edt.tod
          | .date _ => "00:00"
        let base :=
          pyStrip (markerFor tu ++ " " ++ hmStr sdt.tod ++ "-" ++ endStr ++
            " " ++ title)
        if 0 < tu ∧ tu < 120 then base ++ " (in " ++ countdownStr tu ++ ")"
        else base
      | .date _ => "[all-day] " ++ title
    match ev.location with
    | some l => if l = "" then some line else some (line ++ "\n  location: " ++ l)
    | none => some line
  | _, _ => none

/-- `_format_events(events)`: the empty-list sentinel, or the dated header
followed by the surviving per-event lines. -/
def formatEvents (nowUs : Int) (todayStr : String)
    (events : List RemoteEvent) : String :=
  if events.isEmpty then "HEARTBEAT_OK - No events today"
  else
    String.intercalate "\n"
      (("Calendar - " ++ todayStr ++ "\n") ::
        events.filterMap (formatEventLine nowUs))

/-- A timed event on day 0 at offset 0 titled "T", for concrete instances. -/
def evAt (sTod eTod : Nat) : RemoteEvent :=
  ⟨some (.dateTime ⟨0, sTod, 0⟩), some (.dateTime ⟨0, eTod, 0⟩), some "T", none⟩

/-- Countdown rendering under one hour: `hours = 0`, so `"Ym"`. -/
theorem countdownStr_lt_60 (g : ℚ) (h1 : 0 ≤ g) (h2 : g < 60) :
    countdownStr g = toString (Int.floor g) ++ "m" := by
  have hfl : Int.floor (g / 60) = 0 := by
    rw [Int.floor_eq_zero_iff]
    constructor
    · positivity
    · rw [div_lt_one (by norm_num)]; linarith
  unfold countdownStr
  rw [hfl]
  norm_num

/-- Countdown rendering from one hour up (below two): `hours = 1`, so
`"1h Ym"`. -/
theorem countdownStr_ge_60 (k : ℚ) (h1 : 60 ≤ k) (h2 : k < 120) :
    countdownStr k = "1h " ++ toString (Int.floor (k - 60)) ++ "m" := by
  have hfl : Int.floor (k / 60) = 1 := by
    rw [Int.floor_eq_iff]
    constructor
    · push_cast
      rw [le_div_iff₀ (by norm_num)]; linarith
    · push_cast
      rw [div_lt_iff₀ (by norm_num)]; linarith
  unfold countdownStr
  rw [hfl]
  norm_num
  rfl

/-- The rendered line of a timed event with timed end, titled and without
location, as a function of its minutes-until-start. -/
theorem formatEventLine_timed (nowUs : Int) (sdt edt : LocalDT) (t : String)
    (tu : ℚ) (htu : timeUntilMin nowUs sdt.instantUs = tu) :
    formatEventLine nowUs
        ⟨some (.dateTime sdt), some (.dateTime edt), some t, none⟩ =
      some (if 0 < tu ∧ tu < 120 then
              pyStrip (markerFor tu ++ " " ++ hmStr sdt.tod ++ "-" ++
                hmStr edt.tod ++ " " ++ t) ++ " (in " ++ countdownStr tu ++ ")"
            else
              pyStrip (markerFor tu ++ " " ++ hmStr sdt.tod ++ "-" ++
                hmStr edt.tod ++ " " ++ t)) := by
  subst htu
  rfl

/-- C9: the formatter's marker comes from minutes-until-start with the
`< 30 / < 60 / < 120` thresholds, the countdown renders `"Ym"` under an
hour and `"1h Ym"` from one hour up (within the 120-minute window in
which a countdown is appended at all), and concretely: an event starting
in 20 minutes renders urgent with countdown `20m`, one in 90 minutes
renders upcoming with `1h 30m`, and one in 3 hours renders with no marker
and no countdown. -/
theorem format_marker_countdown (a b c d g k : ℚ)
    (ha : a < 30) (hb1 : 30 ≤ b) (hb2 : b < 60) (hc1 : 60 ≤ c) (hc2 : c < 120)
    (hd : 120 ≤ d) (hg1 : 0 < g) (hg2 : g < 60) (hk1 : 60 ≤ k) (hk2 : k < 120) :
    markerFor a = "[urgent]" ∧ markerFor b = "[soon]" ∧
      markerFor c = "[upcoming]" ∧ markerFor d = "" ∧
      countdownStr g = toString (Int.floor g) ++ "m" ∧
      countdownStr k = "1h " ++ toString (Int.floor (k - 60)) ++ "m" ∧
      formatEventLine 0 (evAt 1200000000 3600000000) =
        some "[urgent] 00:20-01:00 T (in 20m)" ∧
      formatEventLine 0 (evAt 5400000000 9000000000) =
        some "[upcoming] 01:30-02:30 T (in 1h 30m)" ∧
      formatEventLine 0 (evAt 10800000000 14400000000) =
        some "03:00-04:00 T" := by
  refine ⟨?_, ?_, ?_, ?_, ?_, ?_, ?_, ?_, ?_⟩
  · simp [markerFor, ha]
  · simp [markerFor, not_lt.mpr hb1, hb2]
  · simp [markerFor, not_lt.mpr (by linarith : (30:ℚ) ≤ c),
      not_lt.mpr hc1, hc2]
  · simp [markerFor, not_lt.mpr (by linarith : (30:ℚ) ≤ d),
      not_lt.mpr (by linarith : (60:ℚ) ≤ d), not_lt.mpr hd]
  · exact countdownStr_lt_60 g (le_of_lt hg1) hg2
  · exact countdownStr_ge_60 k hk1 hk2
  · unfold evAt
    rw [formatEventLine_timed 0 ⟨0, 1200000000, 0⟩ ⟨0, 3600000000, 0⟩ "T" 20
      (by norm_num [timeUntilMin, LocalDT.instantUs, LocalDT.naiveUs,
        usPerDay, usPerMin])]
    rw [if_pos (by norm_num : (0:ℚ) < 20 ∧ (20:ℚ) < 120)]
    rw [countdownStr_lt_60 20 (by norm_num) (by norm_num)]
    have hm : markerFor 20 = "[urgent]" := by norm_num [markerFor]
    have hf : Int.floor (20:ℚ) = 20 := by norm_num
    rw [hm, hf]
    rfl
  · unfold evAt
    rw [formatEventLine_timed 0 ⟨0, 5400000000, 0⟩ ⟨0, 9000000000, 0⟩ "T" 90
      (by norm_num [timeUntilMin, LocalDT.instantUs, LocalDT.naiveUs,
        usPerDay, usPerMin])]
    rw [if_pos (by norm_num : (0:ℚ) < 90 ∧ (90:ℚ) < 120)]
    rw [countdownStr_ge_60 90 (by norm_num) (by norm_num)]
    have hm : markerFor 90 = "[upcoming]" := by norm_num [markerFor]
    have hf : Int.floor ((90:ℚ) - 60) = 30 := by norm_num
    rw [hm, hf]
    rfl
  · unfold evAt
    rw [formatEventLine_timed 0 ⟨0, 10800000000, 0⟩ ⟨0, 14400000000, 0⟩ "T" 180
      (by norm_num [timeUntilMin, LocalDT.instantUs, LocalDT.naiveUs,
        usPerDay, usPerMin])]
    rw [if_neg (by norm_num : ¬((0:ℚ) < 180 ∧ (180:ℚ) < 120))]
    have hm : markerFor 180 = "" := by norm_num [markerFor]
    rw [hm]
    rfl

/-- Closed instance of `format_marker_countdown` at minute values
20, 45, 90, 150 and countdown arguments 20 and 90. -/
theorem format_marker_countdown_witness :
    markerFor 20 = "[urgent]" ∧ markerFor 45 = "[soon]" ∧
      markerFor 90 = "[upcoming]" ∧ markerFor 150 = "" ∧
      countdownStr 20 = toString (Int.floor (20:ℚ)) ++ "m" ∧
      countdownStr 90 = "1h " ++ toString (Int.floor ((90:ℚ) - 60)) ++ "m" ∧
      formatEventLine 0 (evAt 1200000000 3600000000) =
        some "[urgent] 00:20-01:00 T (in 20m)" ∧
      formatEventLine 0 (evAt 5400000000 9000000000) =
        some "[upcoming] 01:30-02:30 T (in 1h 30m)" ∧
      formatEventLine 0 (evAt 10800000000 14400000000) =
        some "03:00-04:00 T" :=
  format_marker_countdown 20 45 90 150 20 90
    (by norm_num) (by norm_num) (by norm_num) (by norm_num) (by norm_num)
    (by norm_num) (by norm_num) (by norm_num) (by norm_num) (by norm_num)

/-- C10: a timed event whose start is at or before the current instant is
still rendered, carries the `[urgent]` marker, and gets no countdown. -/
theorem format_past_event_urgent (nowUs : Int) (sdt edt : LocalDT) (t : String)
    (hle : sdt.instantUs ≤ nowUs) :
    formatEventLine nowUs
        ⟨some (.dateTime sdt), some (.dateTime edt), some t, none⟩ =
      some (pyStrip ("[urgent] " ++ hmStr sdt.tod ++ "-" ++ hmStr edt.tod ++
        " " ++ t)) := by
  have htu : timeUntilMin nowUs sdt.instantUs ≤ 0 := by
    unfold timeUntilMin
    have hx : ((sdt.instantUs - nowUs : Int) : ℚ) ≤ 0 := by
      exact_mod_cast sub_nonpos.mpr hle
    exact div_nonpos_iff.mpr (Or.inr ⟨hx, by norm_num⟩)
  have hmark : markerFor (timeUntilMin nowUs sdt.instantUs) = "[urgent]" := by
    unfold markerFor
    rw [if_pos (lt_of_le_of_lt htu (by norm_num))]
  have hcond : ¬(0 < timeUntilMin nowUs sdt.instantUs ∧
      timeUntilMin nowUs sdt.instantUs < 120) := by
    rintro ⟨h1, -⟩
    linarith
  have key : formatEventLine nowUs
      ⟨some (.dateTime sdt), some (.dateTime edt), some t, none⟩ =
      some (if 0 < timeUntilMin nowUs sdt.instantUs ∧
              timeUntilMin nowUs sdt.instantUs < 120 then
              pyStrip (markerFor (timeUntilMin nowUs sdt.instantUs) ++ " " ++
                hmStr sdt.tod ++ "-" ++ hmStr edt.tod ++ " " ++ t) ++
                " (in " ++ countdownStr (timeUntilMin nowUs sdt.instantUs) ++ ")"
            else
              pyStrip (markerFor (timeUntilMin nowUs sdt.instantUs) ++ " " ++
                hmStr sdt.tod ++ "-" ++ hmStr edt.tod ++ " " ++ t)) := rfl
  rw [key, if_neg hcond, hmark]
  rfl

/-- Closed instance of `format_past_event_urgent`: an event that started
an hour ago renders as urgent with no countdown. -/
theorem format_past_event_urgent_witness :
    formatEventLine 3600000000
        ⟨some (.dateTime ⟨0, 0, 0⟩), some (.dateTime ⟨0, 3600000000, 0⟩),
          some "T", none⟩ =
      some (pyStrip ("[urgent] " ++ hmStr 0 ++ "-" ++ hmStr 3600000000 ++
        " " ++ "T")) :=
  format_past_event_urgent 3600000000 ⟨0, 0, 0⟩ ⟨0, 3600000000, 0⟩ "T"
    (by norm_num [LocalDT.instantUs, LocalDT.naiveUs])

end NanobotCalendar
